import Mathlib

/-
Verification development for feather-httpd.

The Go sources are shallowly embedded below:
- association lists stand in for Go maps and sync.Map values
  (Store / Load / Delete / Range);
- net/http's ResponseWriter is modelled as a record tracking the header
  map, whether the response has been committed (status line and headers
  sent), the status and header snapshot that was sent, and the list of
  body chunks written;
- the per-request and per-server mutable state is threaded explicitly;
- crypto/rand id generation is determinized as a fresh-supply counter.
-/

namespace FeatherHttpd

/-! ## Association-list model of Go maps and sync.Map -/

section MapModel

variable {κ α : Type} [DecidableEq κ]

/-- Model of map lookup (sync.Map Load / Go map index): first binding wins. -/
def mapLoad : List (κ × α) → κ → Option α
  | [], _ => none
  | (k1, v) :: rest, k => if k1 = k then some v else mapLoad rest k

/-- Model of map assignment (sync.Map Store): replaces the first binding
in place, otherwise appends. -/
def mapStore : List (κ × α) → κ → α → List (κ × α)
  | [], k, v => [(k, v)]
  | (k1, v1) :: rest, k, v =>
    if k1 = k then (k, v) :: rest else (k1, v1) :: mapStore rest k v

/-- Model of map removal (sync.Map Delete): removes every binding of the key. -/
def mapDelete : List (κ × α) → κ → List (κ × α)
  | [], _ => []
  | (k1, v1) :: rest, k =>
    if k1 = k then mapDelete rest k else (k1, v1) :: mapDelete rest k

end MapModel

/-! ## Route table and matcher (state.go) -/

/-- Embedding of the Route struct: method, pattern, parameter names
extracted from the pattern, and the script body. -/
structure Route where
  Method : String
  Pattern : String
  Params : List String
  Body : String
  deriving DecidableEq, Repr

/-- Embedding of splitPath's character loop: accumulate the current
segment, emit it at each slash or at the end when nonempty. -/
def splitPathAux : List Char → String → List String
  | [], current => if current ≠ "" then [current] else []
  | c :: cs, current =>
    if c = '/' then
      (if current ≠ "" then [current] else []) ++ splitPathAux cs ""
    else
      splitPathAux cs (current.push c)

/-- Embedding of splitPath: split on slashes, dropping empty segments. -/
def splitPath (path : String) : List String :=
  splitPathAux path.data ""

/-- A pattern segment is a parameter when it is nonempty and starts
with a colon (the len check and byte comparison in the Go source). -/
def segIsParam (s : String) : Bool :=
  match s.data with
  | [] => false
  | c :: _ => c = ':'

/-- Embedding of extractParams: the names of the parameter segments. -/
def extractParams (pattern : String) : List String :=
  (splitPath pattern).filterMap
    (fun part => if segIsParam part then some (part.drop 1) else none)

/-- Embedding of matchRoute's segment loop: walk pattern and path
segments together, binding parameter segments into the params map and
requiring literal segments to be equal. -/
def matchLoop : List String → List String → List (String × String) →
    Option (List (String × String))
  | [], [], params => some params
  | pp :: pps, q :: qs, params =>
    if segIsParam pp then
      matchLoop pps qs (mapStore params (pp.drop 1) q)
    else if pp = q then
      matchLoop pps qs params
    else
      none
  | _, _, _ => none

/-- Embedding of matchRoute: method equality, then equal segment counts,
then the segment loop. Returns the parameter bindings on success. -/
def matchRoute (route : Route) (method path : String) :
    Option (List (String × String)) :=
  if route.Method ≠ method then none
  else
    let patternParts := splitPath route.Pattern
    let pathParts := splitPath path
    if patternParts.length ≠ pathParts.length then none
    else matchLoop patternParts pathParts []

/-- Embedding of the dispatch loop in createHandler: scan the registered
routes in order and return the first route that matches. -/
def findRoute (routes : List Route) (method path : String) :
    Option (Route × List (String × String)) :=
  match routes with
  | [] => none
  | r :: rs =>
    match matchRoute r method path with
    | some params => some (r, params)
    | none => findRoute rs method path

/-! ## Model of net/http ResponseWriter

The sink the handler writes into. WriteHeader sends the status line and
a snapshot of the header map exactly once; a later WriteHeader is a
no-op. Write commits with status 200 first if nothing was sent yet, then
appends the chunk. Flusher.Flush also sends the headers (status 200) if
they were not sent yet. -/

structure ResponseWriter where
  headerMap : List (String × String)
  committed : Bool
  sentStatus : Int
  sentHeaders : List (String × String)
  body : List String
  supportsFlush : Bool
  deriving DecidableEq, Repr

/-- A fresh sink: nothing sent, empty header map. -/
def ResponseWriter.initial : ResponseWriter :=
  { headerMap := [], committed := false, sentStatus := 0, sentHeaders := [],
    body := [], supportsFlush := true }

/-- Model of Writer.Header().Set(k, v). -/
def ResponseWriter.setHeader (w : ResponseWriter) (k v : String) :
    ResponseWriter :=
  { w with headerMap := mapStore w.headerMap k v }

/-- Model of Writer.WriteHeader(code): sends status and the current
header map once; no-op when already committed. -/
def ResponseWriter.writeHeader (w : ResponseWriter) (code : Int) :
    ResponseWriter :=
  if w.committed then w
  else { w with committed := true, sentStatus := code,
                sentHeaders := w.headerMap }

/-- Model of Writer.Write(bytes): commits with status 200 if needed,
then appends the chunk to the body stream. -/
def ResponseWriter.write (w : ResponseWriter) (chunk : String) :
    ResponseWriter :=
  let w1 := w.writeHeader 200
  { w1 with body := w1.body ++ [chunk] }

/-- Model of http.Flusher.Flush(): sends the headers (status 200) if not
yet sent; flushing buffered bytes adds nothing observable to the model. -/
def ResponseWriter.flushSink (w : ResponseWriter) : ResponseWriter :=
  w.writeHeader 200

/-! ## RequestContext and the context-level command cores (commands.go) -/

/-- Embedding of the RequestContext struct: the response sink, path
parameters from the route match, query parameters from the request URL,
the pending status (createHandler constructs it with 200), the pending
header map (the Headers sync.Map), and the Written commit flag. -/
structure RequestContext where
  writer : ResponseWriter
  params : List (String × String)
  queryParams : List (String × String)
  status : Int
  headers : List (String × String)
  written : Bool
  deriving DecidableEq, Repr

/-- The context createHandler builds for a matched route: status 200,
Written false, no pending headers. -/
def RequestContext.fresh (params queryParams : List (String × String)) :
    RequestContext :=
  { writer := ResponseWriter.initial, params := params,
    queryParams := queryParams, status := 200, headers := [],
    written := false }

/-- Copy the pending header map into the sink's header map, as the
Headers.Range loop in respond does before WriteHeader. -/
def pushHeaders (w : ResponseWriter) :
    List (String × String) → ResponseWriter
  | [] => w
  | (k, v) :: rest => pushHeaders (w.setHeader k v) rest

/-- Embedding of the body of the respond command once a context is in
hand: if not yet Written, push the pending headers, send the pending
status when nonzero, and mark Written; then append the payload. -/
def respondCtx (ctx : RequestContext) (body : String) : RequestContext :=
  let ctx1 :=
    if ctx.written then ctx
    else
      let w := pushHeaders ctx.writer ctx.headers
      let w := if ctx.status ≠ 0 then w.writeHeader ctx.status else w
      { ctx with writer := w, written := true }
  { ctx1 with writer := ctx1.writer.write body }

/-- Embedding of the body of the status command: store the pending
status, with no commit-state check. -/
def statusCtx (ctx : RequestContext) (code : Int) : RequestContext :=
  { ctx with status := code }

/-- Embedding of the body of the header command: store the pending
header, with no commit-state check. -/
def headerCtx (ctx : RequestContext) (name value : String) : RequestContext :=
  { ctx with headers := mapStore ctx.headers name value }

/-- Embedding of the body of the flush command: if the sink supports
flushing, flush it; the Written flag and pending status and headers of
the context are not touched. -/
def flushCtx (ctx : RequestContext) : RequestContext :=
  if ctx.writer.supportsFlush then
    { ctx with writer := ctx.writer.flushSink }
  else ctx

/-- Model of net/http's http.Error helper: set the plain-text headers,
send the status, and write the message followed by a newline. -/
def httpError (w : ResponseWriter) (msg : String) (code : Int) :
    ResponseWriter :=
  let w := w.setHeader "Content-Type" "text/plain; charset=utf-8"
  let w := w.setHeader "X-Content-Type-Options" "nosniff"
  let w := w.writeHeader code
  w.write (msg ++ "\x0a")

/-- Embedding of the error branch in createHandler after Eval returns:
when the script failed and the context is not Written, reply with
http.Error(w, errText, 500); otherwise leave everything as it is. -/
def handleEvalError (ctx : RequestContext) (errText : String) :
    RequestContext :=
  if ctx.written then ctx
  else { ctx with writer := httpError ctx.writer errText 500 }

/-! ## ServerState, the connection registry, and the host commands

Go shares one RequestContext by pointer between the ambient reference
and held connections, so contexts live in a heap indexed by Nat and a
Connection refers to its context by heap id. -/

/-- Embedding of the Connection struct. The Done channel is modelled by
the fired set on the server state; the Opened timestamp is not needed by
any claim. -/
structure Conn where
  ID : String
  Name : String
  CtxId : Nat
  OnClose : String
  deriving DecidableEq, Repr

/-- Embedding of ServerState: the context heap, the ambient request
context (reqCtx), the connections sync.Map, the set of connection ids
whose Done channel has been closed, and the id supply. -/
structure Srv where
  ctxHeap : List (Nat × RequestContext)
  reqCtx : Option Nat
  connections : List (String × Conn)
  fired : List String
  nextConnId : Nat
  deriving DecidableEq, Repr

/-- A server with no contexts and no connections. -/
def Srv.initial : Srv :=
  { ctxHeap := [], reqCtx := none, connections := [], fired := [],
    nextConnId := 0 }

/-- Determinization of generateID (8 bytes of crypto/rand, hex-encoded,
with a conn- tag): a fresh-supply counter rendered with the same tag. -/
def freshId (s : Srv) : String :=
  "conn-" ++ toString s.nextConnId

/-- Embedding of ServerState.SetRequestContext. -/
def SetRequestContext (s : Srv) (cid : Option Nat) : Srv :=
  { s with reqCtx := cid }

/-- Embedding of ServerState.GetConnection: lookup by id or alias. -/
def GetConnection (s : Srv) (handle : String) : Option Conn :=
  mapLoad s.connections handle

/-- Embedding of ServerState.HoldConnection: with no ambient context it
fails; otherwise it builds a Connection carrying a generated id and the
optional alias, stores it under the id and, when the alias is nonempty,
under the alias as well. -/
def HoldConnection (s : Srv) (name : String) : Option Conn × Srv :=
  match s.reqCtx with
  | none => (none, s)
  | some cid =>
    let id := freshId s
    let conn : Conn := { ID := id, Name := name, CtxId := cid, OnClose := "" }
    let conns := mapStore s.connections id conn
    let conns := if name ≠ "" then mapStore conns name conn else conns
    (some conn,
     { s with connections := conns, nextConnId := s.nextConnId + 1 })

/-- Embedding of ServerState.CloseConnection: unknown handles fail;
otherwise close the Done channel if not closed yet and delete both the
id entry and, when nonempty, the alias entry. -/
def CloseConnection (s : Srv) (handle : String) : Except String Srv :=
  match mapLoad s.connections handle with
  | none => .error ("unknown connection: " ++ handle)
  | some conn =>
    let fired := if conn.ID ∈ s.fired then s.fired else conn.ID :: s.fired
    let conns := mapDelete s.connections conn.ID
    let conns := if conn.Name ≠ "" then mapDelete conns conn.Name else conns
    .ok { s with connections := conns, fired := fired }

/-- The handle ListConnections reports for a connection: the alias when
one was given, the id otherwise. -/
def preferredHandle (c : Conn) : String :=
  if c.Name ≠ "" then c.Name else c.ID

/-- Range loop of ListConnections: one handle per distinct connection
id, preferring the alias. -/
def listConnsAux : List (String × Conn) → List String → List String
  | [], _ => []
  | (_, c) :: rest, seen =>
    if c.ID ∈ seen then listConnsAux rest seen
    else preferredHandle c :: listConnsAux rest (c.ID :: seen)

/-- Embedding of ServerState.ListConnections. -/
def ListConnections (s : Srv) : List String :=
  listConnsAux s.connections []

/-- Result of a host command as seen by the script. -/
inductive Res where
  | ok (s : String)
  | err (s : String)
  deriving DecidableEq, Repr

/-- Mutate the context a command resolved, as Go does through the shared
pointer. -/
def updateCtx (s : Srv) (cid : Nat) (f : RequestContext → RequestContext) :
    Srv :=
  match mapLoad s.ctxHeap cid with
  | none => s
  | some c => { s with ctxHeap := mapStore s.ctxHeap cid (f c) }

/-- Outcome of the shared target-resolution prologue of respond, status,
header and flush. -/
inductive TargetOutcome where
  | silent
  | noCtx
  | found (cid : Nat) (argIdx : Nat)
  deriving DecidableEq, Repr

/-- The ambient fallback of the prologue: the current request context,
or a ContextError when none is installed. -/
def ambientTarget (s : Srv) : TargetOutcome :=
  match s.reqCtx with
  | none => .noCtx
  | some cid => .found cid 0

/-- Embedding of the target prologue shared by respond, status, header
and flush: when at least two arguments are given and the first is -to,
resolve the handle — an unknown handle short-circuits to silent success;
otherwise fall back to the ambient context. -/
def resolveTarget (s : Srv) (args : List String) : TargetOutcome :=
  match args with
  | a0 :: a1 :: _ =>
    if a0 = "-to" then
      match GetConnection s a1 with
      | none => .silent
      | some conn => .found conn.CtxId 2
    else ambientTarget s
  | _ => ambientTarget s

/-- Embedding of the respond command. -/
def respondCmd (s : Srv) (args : List String) : Res × Srv :=
  match resolveTarget s args with
  | .silent => (.ok "", s)
  | .noCtx => (.err "respond: not in request context", s)
  | .found cid idx =>
    match args.drop idx with
    | [] => (.err "wrong # args: should be \"respond ?-to handle? body\"", s)
    | body :: _ => (.ok "", updateCtx s cid (fun c => respondCtx c body))

/-- Embedding of the status command. -/
def statusCmd (s : Srv) (args : List String) : Res × Srv :=
  match resolveTarget s args with
  | .silent => (.ok "", s)
  | .noCtx => (.err "status: not in request context", s)
  | .found cid idx =>
    match args.drop idx with
    | [] => (.err "wrong # args: should be \"status ?-to handle? code\"", s)
    | codeStr :: _ =>
      match codeStr.toInt? with
      | none => (.err ("status: expected integer, got " ++ codeStr), s)
      | some code => (.ok "", updateCtx s cid (fun c => statusCtx c code))

/-- Embedding of the header command. -/
def headerCmd (s : Srv) (args : List String) : Res × Srv :=
  match resolveTarget s args with
  | .silent => (.ok "", s)
  | .noCtx => (.err "header: not in request context", s)
  | .found cid idx =>
    match args.drop idx with
    | name :: value :: _ =>
      (.ok "", updateCtx s cid (fun c => headerCtx c name value))
    | _ => (.err "wrong # args: should be \"header ?-to handle? name value\"", s)

/-- Embedding of the flush command. -/
def flushCmd (s : Srv) (args : List String) : Res × Srv :=
  match resolveTarget s args with
  | .silent => (.ok "", s)
  | .noCtx => (.err "flush: not in request context", s)
  | .found cid _ => (.ok "", updateCtx s cid flushCtx)

/-- Embedding of the connection hold subcommand: delegate to
HoldConnection and return the alias when one was given, else the id. -/
def connectionHold (s : Srv) (name : String) : Res × Srv :=
  match HoldConnection s name with
  | (none, s1) => (.err "connection hold: not in request context", s1)
  | (some conn, s1) =>
    if name ≠ "" then (.ok name, s1) else (.ok conn.ID, s1)

/-- Embedding of the connection close subcommand. -/
def connectionClose (s : Srv) (handle : String) : Res × Srv :=
  match CloseConnection s handle with
  | .error e => (.err ("connection close: " ++ e), s)
  | .ok s1 => (.ok "", s1)

/-! ## The query command (commands.go) -/

/-- Model of net/url Values.Get: the first value bound to the key, or
the empty string when the key is absent. -/
def urlQueryGet (query : List (String × String)) (name : String) : String :=
  match mapLoad query name with
  | none => ""
  | some v => v

/-- Embedding of the query command body once the ambient context is in
hand: read the parameter; when the value is empty and a default argument
was supplied, the default replaces it. -/
def queryCtx (ctx : RequestContext) : List String → Res
  | [] => .err "wrong # args: should be \"query name ?default?\""
  | name :: rest =>
    let val := urlQueryGet ctx.queryParams name
    let val :=
      match rest with
      | [] => val
      | d :: _ => if val = "" then d else val
    .ok val

/-! ## Statement order of the dispatcher (createHandler)

The handler body for a matched route is a straight line: install the
context, submit the script and wait for the reply, run the error check,
query the registry for a connection owning this context, block on the
termination/disconnect race when one exists, and finally clear the
ambient context. The trace below transcribes that statement order. -/

inductive DispatchStep where
  | installCtx
  | submitScript
  | replyReceived
  | errorCheck
  | heldCheck
  | awaitTermination
  | clearCtx
  | notFound
  deriving DecidableEq, Repr

/-- The sequence of dispatcher steps for one request, in the statement
order of createHandler, as a function of whether a route matched and
whether the context was found held after the script returned. -/
def createHandlerSteps (matched held : Bool) : List DispatchStep :=
  if matched then
    [DispatchStep.installCtx, DispatchStep.submitScript,
     DispatchStep.replyReceived, DispatchStep.errorCheck,
     DispatchStep.heldCheck]
      ++ (if held then [DispatchStep.awaitTermination] else [])
      ++ [DispatchStep.clearCtx]
  else [DispatchStep.notFound]

/-! ## The ExecutionSerializer (RunInterpreter and Eval)

RunInterpreter is started exactly once; it receives one EvalRequest at a
time from evalChan, evaluates it to completion and fulfills the reply
before receiving the next. The transition system below models that
shape: submissions append to a FIFO queue, the single worker slot takes
the queue head only when idle, and completing a script applies the whole
effect of the script to the store at once. Start and completion events
are logged so that instantaneous overlap can be stated. -/

inductive SerEv where
  | start (i : Nat)
  | done (i : Nat)
  deriving DecidableEq, Repr

/-- State of the serializer: the ghost submission order, the pending
queue (evalChan backlog), the single worker slot, the completion order,
the event log, and the store of script effects. -/
structure SerState (α : Type) where
  submitted : List Nat
  queue : List Nat
  running : Option Nat
  completed : List Nat
  events : List SerEv
  store : List α
  deriving Repr

/-- The serializer before any submission. -/
def SerState.init (α : Type) : SerState α :=
  { submitted := [], queue := [], running := none, completed := [],
    events := [], store := [] }

/-- Transitions of the serializer. submit is a caller sending on
evalChan; take is the worker receiving a request, possible only when it
is idle; done is the worker completing the evaluation, installing the
script's whole effect and replying. -/
inductive SerStep (effect : Nat → List α) : SerState α → SerState α → Prop
  | submit (s : SerState α) (i : Nat) :
      SerStep effect s
        { s with submitted := s.submitted ++ [i], queue := s.queue ++ [i] }
  | take (s : SerState α) (i : Nat) (q : List Nat) :
      s.running = none → s.queue = i :: q →
      SerStep effect s
        { s with queue := q, running := some i,
                 events := s.events ++ [SerEv.start i] }
  | done (s : SerState α) (i : Nat) :
      s.running = some i →
      SerStep effect s
        { s with running := none, completed := s.completed ++ [i],
                 store := s.store ++ effect i,
                 events := s.events ++ [SerEv.done i] }

/-- States reachable from the initial serializer state. -/
inductive SerReachable (effect : Nat → List α) : SerState α → Prop
  | init : SerReachable effect (SerState.init α)
  | step {s t : SerState α} :
      SerReachable effect s → SerStep effect s t → SerReachable effect t

/-- Number of start events in an event log. -/
def countStarts (evs : List SerEv) : Nat :=
  evs.countP (fun e => match e with | SerEv.start _ => true | _ => false)

/-- Number of completion events in an event log. -/
def countDones (evs : List SerEv) : Nat :=
  evs.countP (fun e => match e with | SerEv.done _ => true | _ => false)

/-- The worker slot as a list: empty when idle. -/
def optList : Option Nat → List Nat
  | none => []
  | some i => [i]

/-- The serializer invariant: the submission order splits into completed
scripts, the running script and the pending queue; the store is the
concatenation of whole effects in completion order; the event counts
track completion and the worker slot; and every instant of the event log
has at most one script in flight. -/
def SerInv (effect : Nat → List α) (s : SerState α) : Prop :=
  s.submitted = s.completed ++ optList s.running ++ s.queue
  ∧ s.store = s.completed.flatMap effect
  ∧ countStarts s.events =
      s.completed.length + (optList s.running).length
  ∧ countDones s.events = s.completed.length
  ∧ ∀ t, t <+: s.events →
      countDones t ≤ countStarts t ∧ countStarts t ≤ countDones t + 1

/-! ## Registry consistency predicates and concrete states -/

/-- Every key of the registry is the id or the (nonempty) alias of the
connection it resolves to. -/
def KeyConsistent (s : Srv) : Prop :=
  ∀ k c, mapLoad s.connections k = some c →
    k = c.ID ∨ (c.Name ≠ "" ∧ k = c.Name)

/-- Every connection in the registry is reachable under its id and,
when an alias was given, under its alias: the dual-keying property the
specification asserts. -/
def DualKeyed (s : Srv) : Prop :=
  ∀ k c, mapLoad s.connections k = some c →
    mapLoad s.connections c.ID = some c
    ∧ (c.Name ≠ "" → mapLoad s.connections c.Name = some c)

/-- The registry consistency invariant. -/
def RegistryInv (s : Srv) : Prop := KeyConsistent s ∧ DualKeyed s

/-- The state CloseConnection leaves behind once it has resolved the
handle to a connection: Done fired, both index entries removed. -/
def closedSrv (s : Srv) (c : Conn) : Srv :=
  { s with
    connections :=
      if c.Name ≠ "" then
        mapDelete (mapDelete s.connections c.ID) c.Name
      else mapDelete s.connections c.ID,
    fired := if c.ID ∈ s.fired then s.fired else c.ID :: s.fired }

/-- An Open context with a pending non-default status and one pending
header; nothing has been sent on its sink. -/
def openDemoCtx : RequestContext :=
  { writer := ResponseWriter.initial, params := [], queryParams := [],
    status := 500, headers := [("X-Test", "1")], written := false }

/-- A server with one fresh request context installed as ambient. -/
def oneCtxSrv : Srv :=
  { ctxHeap := [(0, RequestContext.fresh [] [])], reqCtx := some 0,
    connections := [], fired := [], nextConnId := 0 }

/-- A server with two request contexts, the first installed as ambient. -/
def twoCtxSrv : Srv :=
  { ctxHeap := [(0, RequestContext.fresh [] []),
                (1, RequestContext.fresh [] [])],
    reqCtx := some 0, connections := [], fired := [], nextConnId := 0 }

/-- State after holding the first context under alias room and then the
second context under the same alias. -/
def aliasReuseSrv : Srv :=
  (HoldConnection
    (SetRequestContext (HoldConnection twoCtxSrv "room").2 (some 1))
    "room").2

/-- The first connection created in aliasReuseSrv. -/
def aliasReuseConn1 : Conn :=
  { ID := "conn-0", Name := "room", CtxId := 0, OnClose := "" }

/-- The second connection created in aliasReuseSrv. -/
def aliasReuseConn2 : Conn :=
  { ID := "conn-1", Name := "room", CtxId := 1, OnClose := "" }

/-- aliasReuseSrv after closing the first connection by its id. -/
def aliasReuseClosed : Srv :=
  match CloseConnection aliasReuseSrv "conn-0" with
  | .ok s1 => s1
  | .error _ => aliasReuseSrv

/-- The hello route of the example configuration. -/
def helloRoute : Route :=
  { Method := "GET", Pattern := "/hello/:name",
    Params := extractParams "/hello/:name",
    Body := "respond hello" }

/-- A second route overlapping the hello route, for the first-match
demonstration. -/
def otherRoute : Route :=
  { Method := "GET", Pattern := "/hello/:other",
    Params := extractParams "/hello/:other",
    Body := "respond other" }

/-- Effect function for the serializer demonstration. -/
def serDemoEffect : Nat → List Nat := fun i => [i]

/-- Final state of a two-script serializer run. -/
def serDemoFinal : SerState Nat :=
  { submitted := [0, 1], queue := [], running := none, completed := [0, 1],
    events := [SerEv.start 0, SerEv.done 0, SerEv.start 1, SerEv.done 1],
    store := [0, 1] }

/-- The connection HoldConnection builds when the ambient context is
cid. -/
def heldConn (s : Srv) (cid : Nat) (name : String) : Conn :=
  { ID := freshId s, Name := name, CtxId := cid, OnClose := "" }

/-- The server state HoldConnection leaves behind when the ambient
context is cid. -/
def heldSrv (s : Srv) (cid : Nat) (name : String) : Srv :=
  { s with
    connections :=
      if name ≠ "" then
        mapStore (mapStore s.connections (freshId s) (heldConn s cid name))
          name (heldConn s cid name)
      else mapStore s.connections (freshId s) (heldConn s cid name),
    nextConnId := s.nextConnId + 1 }

/-- A context committed by a first body write. -/
def committedDemoCtx : RequestContext :=
  respondCtx (RequestContext.fresh [] []) "hello"

/-- A request whose URL carries the query parameter q with empty value. -/
def emptyValCtx : RequestContext :=
  RequestContext.fresh [] [("q", "")]

/-- A request whose URL carries no query parameters. -/
def absentCtx : RequestContext :=
  RequestContext.fresh [] []

/-! ## Helper lemmas -/

section MapLemmas

variable {κ α : Type} [DecidableEq κ]

theorem mapLoad_mapStore_self (m : List (κ × α)) (k : κ) (v : α) :
    mapLoad (mapStore m k v) k = some v := by
  induction m with
  | nil => simp [mapStore, mapLoad]
  | cons hd tl ih =>
    rcases hd with ⟨k1, v1⟩
    by_cases h : k1 = k
    · simp [mapStore, mapLoad, h]
    · simp [mapStore, mapLoad, h, ih]

theorem mapLoad_mapStore_ne (m : List (κ × α)) (k k2 : κ) (v : α)
    (h : k2 ≠ k) : mapLoad (mapStore m k v) k2 = mapLoad m k2 := by
  have h3 : k ≠ k2 := fun he => h he.symm
  induction m with
  | nil => simp [mapStore, mapLoad, h3]
  | cons hd tl ih =>
    rcases hd with ⟨k1, v1⟩
    by_cases h1 : k1 = k
    · subst h1
      simp [mapStore, mapLoad, h3]
    · simp [mapStore, mapLoad, h1, ih]

theorem mapLoad_mapDelete_self (m : List (κ × α)) (k : κ) :
    mapLoad (mapDelete m k) k = none := by
  induction m with
  | nil => simp [mapDelete, mapLoad]
  | cons hd tl ih =>
    rcases hd with ⟨k1, v1⟩
    by_cases h : k1 = k <;> simp [mapDelete, mapLoad, h, ih]

theorem mapLoad_mapDelete_ne (m : List (κ × α)) (k k2 : κ) (h : k2 ≠ k) :
    mapLoad (mapDelete m k) k2 = mapLoad m k2 := by
  have h3 : k ≠ k2 := fun he => h he.symm
  induction m with
  | nil => simp [mapDelete]
  | cons hd tl ih =>
    rcases hd with ⟨k1, v1⟩
    by_cases h1 : k1 = k
    · subst h1
      simp [mapDelete, mapLoad, h3, ih]
    · simp [mapDelete, mapLoad, h1, ih]

end MapLemmas

theorem splitPath_ne_empty (cs : List Char) (cur : String) (s : String)
    (h : s ∈ splitPathAux cs cur) : s ≠ "" := by
  induction cs generalizing cur with
  | nil =>
    by_cases hc : cur = ""
    · simp [splitPathAux, hc] at h
    · simp [splitPathAux, hc] at h
      simpa [h] using hc
  | cons c cs ih =>
    by_cases hsl : c = '/'
    · by_cases hc : cur = ""
      · simp [splitPathAux, hsl, hc] at h
        exact ih "" h
      · simp [splitPathAux, hsl, hc] at h
        rcases h with h | h
        · simpa [h] using hc
        · exact ih "" h
    · simp [splitPathAux, hsl] at h
      exact ih (cur.push c) h

theorem matchRoute_some_method_len (r : Route) (m p : String)
    (ps : List (String × String)) (h : matchRoute r m p = some ps) :
    r.Method = m ∧ (splitPath r.Pattern).length = (splitPath p).length := by
  unfold matchRoute at h
  by_cases hm : r.Method = m
  · by_cases hl : (splitPath r.Pattern).length = (splitPath p).length
    · exact ⟨hm, hl⟩
    · simp [hm, hl] at h
  · simp [hm] at h

theorem matchLoop_literal_mismatch (pps qs : List String)
    (acc : List (String × String))
    (h : ∃ pr ∈ pps.zip qs, segIsParam pr.1 = false ∧ pr.1 ≠ pr.2) :
    matchLoop pps qs acc = none := by
  induction pps generalizing qs acc with
  | nil =>
    rcases h with ⟨pr, hmem, _⟩
    simp at hmem
  | cons pp pps ih =>
    cases qs with
    | nil =>
      rcases h with ⟨pr, hmem, _⟩
      simp at hmem
    | cons q qs =>
      rcases h with ⟨pr, hmem, hlit, hne⟩
      simp [List.zip_cons_cons] at hmem
      rcases hmem with rfl | hmem
      · simp at hlit hne
        simp [matchLoop, hlit, hne]
      · by_cases hparam : segIsParam pp
        · have hrec := ih qs (mapStore acc (pp.drop 1) q) ⟨pr, hmem, hlit, hne⟩
          simp [matchLoop, hparam, hrec]
        · by_cases heq : pp = q
          · subst heq
            have hrec := ih qs acc ⟨pr, hmem, hlit, hne⟩
            simp [matchLoop, hparam, hrec]
          · simp [matchLoop, hparam, heq]

/-- A list that is an initial segment of another, extended by one
element, is either an initial segment of the shorter list or the whole
extended list. -/
theorem pre_concat_cases {β : Type} (t l : List β) (e : β)
    (h : t <+: l ++ [e]) : t <+: l ∨ t = l ++ [e] := by
  induction l generalizing t with
  | nil =>
    obtain ⟨r, hr⟩ := h
    cases t with
    | nil => exact Or.inl ⟨[], rfl⟩
    | cons a t2 =>
      cases t2 with
      | nil =>
        simp at hr
        simp [hr.1]
      | cons b t3 => simp at hr
  | cons a l2 ih =>
    cases t with
    | nil => exact Or.inl ⟨a :: l2, rfl⟩
    | cons b t2 =>
      obtain ⟨r, hr⟩ := h
      simp at hr
      obtain ⟨hba, hr2⟩ := hr
      rcases ih t2 ⟨r, hr2⟩ with h2 | h2
      · obtain ⟨r2, hr3⟩ := h2
        exact Or.inl ⟨r2, by simp [hba, hr3]⟩
      · subst hba
        simp [h2]

theorem serInv_init (effect : Nat → List α) :
    SerInv effect (SerState.init α) := by
  refine ⟨rfl, rfl, rfl, rfl, ?_⟩
  intro t ht
  obtain ⟨r, hr⟩ := ht
  have hnil : t = [] := by
    cases t with
    | nil => rfl
    | cons x xs => simp [SerState.init] at hr
  simp [hnil, countStarts, countDones]

theorem serInv_step (effect : Nat → List α) (s u : SerState α)
    (hinv : SerInv effect s) (hstep : SerStep effect s u) :
    SerInv effect u := by
  obtain ⟨h1, h2, h3, h4, h5⟩ := hinv
  cases hstep with
  | submit i =>
    refine ⟨?_, h2, h3, h4, h5⟩
    simp [h1]
  | take i q hrun hq =>
    have hstartCount :
        countStarts (s.events ++ [SerEv.start i]) =
          countStarts s.events + 1 := by
      simp [countStarts]
    have hdoneCount :
        countDones (s.events ++ [SerEv.start i]) =
          countDones s.events := by
      simp [countDones]
    refine ⟨?_, h2, ?_, ?_, ?_⟩
    · simp [h1, hq, hrun, optList]
    · simp [hstartCount, h3, hrun, optList]
    · simp [hdoneCount, h4]
    · intro t ht
      rcases pre_concat_cases t s.events (SerEv.start i) ht with h6 | h6
      · exact h5 t h6
      · subst h6
        rw [hstartCount, hdoneCount]
        have heq : countStarts s.events = countDones s.events := by
          rw [h3, h4, hrun]
          simp [optList]
        omega
  | done i hrun =>
    have hstartCount :
        countStarts (s.events ++ [SerEv.done i]) =
          countStarts s.events := by
      simp [countStarts]
    have hdoneCount :
        countDones (s.events ++ [SerEv.done i]) =
          countDones s.events + 1 := by
      simp [countDones]
    refine ⟨?_, ?_, ?_, ?_, ?_⟩
    · simp [h1, hrun, optList]
    · simp [h2]
    · simp [hstartCount, h3, hrun, optList]
    · simp [hdoneCount, h4]
    · intro t ht
      rcases pre_concat_cases t s.events (SerEv.done i) ht with h6 | h6
      · exact h5 t h6
      · subst h6
        rw [hstartCount, hdoneCount]
        have heq : countStarts s.events = countDones s.events + 1 := by
          rw [h3, h4, hrun]
          simp [optList]
        omega

theorem serInv_reachable (effect : Nat → List α) (s : SerState α)
    (h : SerReachable effect s) : SerInv effect s := by
  induction h with
  | init => exact serInv_init effect
  | step hr hstep ih => exact serInv_step effect _ _ ih hstep

theorem pushHeaders_fields (hs : List (String × String))
    (w : ResponseWriter) :
    (pushHeaders w hs).committed = w.committed
    ∧ (pushHeaders w hs).sentStatus = w.sentStatus
    ∧ (pushHeaders w hs).sentHeaders = w.sentHeaders
    ∧ (pushHeaders w hs).body = w.body
    ∧ (pushHeaders w hs).supportsFlush = w.supportsFlush := by
  induction hs generalizing w with
  | nil => exact ⟨rfl, rfl, rfl, rfl, rfl⟩
  | cons kv rest ih =>
    rcases kv with ⟨k, v⟩
    simpa [pushHeaders, ResponseWriter.setHeader] using ih (w.setHeader k v)

theorem mapLoad_close_elim (m : List (String × Conn)) (c0 : Conn)
    (k : String) (c : Conn)
    (hk : mapLoad
        (if c0.Name ≠ "" then mapDelete (mapDelete m c0.ID) c0.Name
         else mapDelete m c0.ID) k = some c) :
    mapLoad m k = some c ∧ k ≠ c0.ID ∧ (c0.Name ≠ "" → k ≠ c0.Name) := by
  by_cases hn : c0.Name = ""
  · simp [hn] at hk
    have hki : k ≠ c0.ID := by
      intro he
      rw [he, mapLoad_mapDelete_self] at hk
      exact Option.noConfusion hk
    rw [mapLoad_mapDelete_ne m c0.ID k hki] at hk
    exact ⟨hk, hki, fun hcon => absurd hn hcon⟩
  · simp [hn] at hk
    have hkn : k ≠ c0.Name := by
      intro he
      rw [he, mapLoad_mapDelete_self] at hk
      exact Option.noConfusion hk
    rw [mapLoad_mapDelete_ne _ c0.Name k hkn] at hk
    have hki : k ≠ c0.ID := by
      intro he
      rw [he, mapLoad_mapDelete_self] at hk
      exact Option.noConfusion hk
    rw [mapLoad_mapDelete_ne m c0.ID k hki] at hk
    exact ⟨hk, hki, fun _ => hkn⟩

theorem mapLoad_close_intro (m : List (String × Conn)) (c0 : Conn)
    (k : String) (hki : k ≠ c0.ID) (hkn : c0.Name ≠ "" → k ≠ c0.Name) :
    mapLoad
        (if c0.Name ≠ "" then mapDelete (mapDelete m c0.ID) c0.Name
         else mapDelete m c0.ID) k = mapLoad m k := by
  by_cases hn : c0.Name = ""
  · simp [hn]
    exact mapLoad_mapDelete_ne m c0.ID k hki
  · simp [hn]
    rw [mapLoad_mapDelete_ne _ c0.Name k (hkn hn)]
    exact mapLoad_mapDelete_ne m c0.ID k hki

theorem registryInv_hold (s : Srv) (name : String)
    (hinv : RegistryInv s)
    (hfresh : mapLoad s.connections (freshId s) = none)
    (hname : name ≠ "" →
      mapLoad s.connections name = none ∧ name ≠ freshId s) :
    RegistryInv (HoldConnection s name).2 := by
  obtain ⟨hkc, hdk⟩ := hinv
  cases hrc : s.reqCtx with
  | none => simpa [HoldConnection, hrc] using ⟨hkc, hdk⟩
  | some cid =>
    by_cases hn : name = ""
    · have hconns :
          (HoldConnection s name).2.connections =
            mapStore s.connections (freshId s)
              { ID := freshId s, Name := name, CtxId := cid,
                OnClose := "" } := by
        simp [HoldConnection, hrc, hn]
      constructor
      · intro k c hk
        rw [hconns] at hk
        by_cases hki : k = freshId s
        · subst hki
          rw [mapLoad_mapStore_self] at hk
          cases hk
          exact Or.inl rfl
        · rw [mapLoad_mapStore_ne _ _ _ _ hki] at hk
          exact hkc k c hk
      · intro k c hk
        rw [hconns] at hk
        rw [hconns]
        by_cases hki : k = freshId s
        · subst hki
          rw [mapLoad_mapStore_self] at hk
          cases hk
          refine ⟨mapLoad_mapStore_self _ _ _, fun hcn => ?_⟩
          simp at hcn
          exact absurd hn hcn
        · rw [mapLoad_mapStore_ne _ _ _ _ hki] at hk
          have hold := hdk k c hk
          have hcid : c.ID ≠ freshId s := by
            intro he
            rw [he, hfresh] at hold
            exact Option.noConfusion hold.1
          refine ⟨?_, fun hcn => ?_⟩
          · rw [mapLoad_mapStore_ne _ _ _ _ hcid]
            exact hold.1
          · have hcnm : c.Name ≠ freshId s := by
              intro he
              have := hold.2 hcn
              rw [he, hfresh] at this
              exact Option.noConfusion this
            rw [mapLoad_mapStore_ne _ _ _ _ hcnm]
            exact hold.2 hcn
    · obtain ⟨hnm, hni⟩ := hname hn
      have hconns :
          (HoldConnection s name).2.connections =
            mapStore
              (mapStore s.connections (freshId s)
                { ID := freshId s, Name := name, CtxId := cid,
                  OnClose := "" })
              name
              { ID := freshId s, Name := name, CtxId := cid,
                OnClose := "" } := by
        simp [HoldConnection, hrc, hn]
      have hidn : freshId s ≠ name := fun he => hni he.symm
      constructor
      · intro k c hk
        rw [hconns] at hk
        by_cases hkn : k = name
        · subst hkn
          rw [mapLoad_mapStore_self] at hk
          cases hk
          exact Or.inr ⟨hn, rfl⟩
        · rw [mapLoad_mapStore_ne _ _ _ _ hkn] at hk
          by_cases hki : k = freshId s
          · subst hki
            rw [mapLoad_mapStore_self] at hk
            cases hk
            exact Or.inl rfl
          · rw [mapLoad_mapStore_ne _ _ _ _ hki] at hk
            exact hkc k c hk
      · intro k c hk
        rw [hconns] at hk
        rw [hconns]
        have hnewOk :
            mapLoad
              (mapStore
                (mapStore s.connections (freshId s)
                  { ID := freshId s, Name := name, CtxId := cid,
                    OnClose := "" })
                name
                { ID := freshId s, Name := name, CtxId := cid,
                  OnClose := "" })
              (freshId s) =
              some { ID := freshId s, Name := name, CtxId := cid,
                     OnClose := "" } := by
          rw [mapLoad_mapStore_ne _ _ _ _ hidn]
          exact mapLoad_mapStore_self _ _ _
        by_cases hkn : k = name
        · subst hkn
          rw [mapLoad_mapStore_self] at hk
          cases hk
          exact ⟨hnewOk, fun _ => mapLoad_mapStore_self _ _ _⟩
        · rw [mapLoad_mapStore_ne _ _ _ _ hkn] at hk
          by_cases hki : k = freshId s
          · subst hki
            rw [mapLoad_mapStore_self] at hk
            cases hk
            exact ⟨hnewOk, fun _ => mapLoad_mapStore_self _ _ _⟩
          · rw [mapLoad_mapStore_ne _ _ _ _ hki] at hk
            have hold := hdk k c hk
            have hcid1 : c.ID ≠ freshId s := by
              intro he
              rw [he, hfresh] at hold
              exact Option.noConfusion hold.1
            have hcid2 : c.ID ≠ name := by
              intro he
              rw [he, hnm] at hold
              exact Option.noConfusion hold.1
            refine ⟨?_, fun hcn => ?_⟩
            · rw [mapLoad_mapStore_ne _ _ _ _ hcid2,
                  mapLoad_mapStore_ne _ _ _ _ hcid1]
              exact hold.1
            · have h2 := hold.2 hcn
              have hcn1 : c.Name ≠ freshId s := by
                intro he
                rw [he, hfresh] at h2
                exact Option.noConfusion h2
              have hcn2 : c.Name ≠ name := by
                intro he
                rw [he, hnm] at h2
                exact Option.noConfusion h2
              rw [mapLoad_mapStore_ne _ _ _ _ hcn2,
                  mapLoad_mapStore_ne _ _ _ _ hcn1]
              exact h2

theorem registryInv_close (s : Srv) (h : String) (s1 : Srv)
    (hinv : RegistryInv s) (hok : CloseConnection s h = .ok s1) :
    RegistryInv s1 := by
  obtain ⟨hkc, hdk⟩ := hinv
  cases hload : mapLoad s.connections h with
  | none => simp [CloseConnection, hload] at hok
  | some c0 =>
    have hs1 : s1 = closedSrv s c0 := by
      have := hok
      simp [CloseConnection, hload, closedSrv] at this ⊢
      exact this.symm
    subst hs1
    have hc0 := hdk h c0 hload
    constructor
    · intro k c hk
      have helim := mapLoad_close_elim s.connections c0 k c hk
      exact hkc k c helim.1
    · intro k c hk
      have helim := mapLoad_close_elim s.connections c0 k c hk
      obtain ⟨hkm, hki, hkn⟩ := helim
      have hold := hdk k c hkm
      have hcne : c ≠ c0 := by
        intro he
        subst he
        rcases hkc k c hkm with hid | hnm2
        · exact hki hid
        · exact (hkn hnm2.1) hnm2.2
      have hcid1 : c.ID ≠ c0.ID := by
        intro he
        have h1 := hold.1
        rw [he, hc0.1] at h1
        exact hcne (Option.some.inj h1).symm
      have hcid2 : c0.Name ≠ "" → c.ID ≠ c0.Name := by
        intro hn0 he
        have h1 := hold.1
        rw [he, hc0.2 hn0] at h1
        exact hcne (Option.some.inj h1).symm
      refine ⟨?_, fun hcn => ?_⟩
      · have hsame := mapLoad_close_intro s.connections c0 c.ID hcid1 hcid2
        simp only [closedSrv]
        rw [hsame]
        exact hold.1
      · have h2 := hold.2 hcn
        have hcn1 : c.Name ≠ c0.ID := by
          intro he
          have h3 := h2
          rw [he, hc0.1] at h3
          exact hcne (Option.some.inj h3).symm
        have hcn2 : c0.Name ≠ "" → c.Name ≠ c0.Name := by
          intro hn0 he
          have h3 := h2
          rw [he, hc0.2 hn0] at h3
          exact hcne (Option.some.inj h3).symm
        have hsame := mapLoad_close_intro s.connections c0 c.Name hcn1 hcn2
        simp only [closedSrv]
        rw [hsame]
        exact h2


theorem holdConnection_eq (s : Srv) (cid : Nat) (name : String)
    (hrc : s.reqCtx = some cid) :
    HoldConnection s name =
      (some (heldConn s cid name), heldSrv s cid name) := by
  simp [HoldConnection, hrc, heldConn, heldSrv]

theorem closeConnection_eq (s : Srv) (h : String) (c : Conn)
    (hload : mapLoad s.connections h = some c) :
    CloseConnection s h = .ok (closedSrv s c) := by
  simp [CloseConnection, hload, closedSrv]

theorem closedSrv_get_id (s : Srv) (c : Conn) :
    GetConnection (closedSrv s c) c.ID = none := by
  by_cases hn : c.Name = ""
  · simp [GetConnection, closedSrv, hn, mapLoad_mapDelete_self]
  · by_cases hin : c.ID = c.Name
    · simp only [GetConnection, closedSrv, ne_eq, hn, not_false_iff, if_true]
      rw [hin]
      exact mapLoad_mapDelete_self _ _
    · simp only [GetConnection, closedSrv, ne_eq, hn, not_false_iff, if_true]
      rw [mapLoad_mapDelete_ne _ _ _ hin]
      exact mapLoad_mapDelete_self _ _

theorem closedSrv_get_name (s : Srv) (c : Conn) (hn : c.Name ≠ "") :
    GetConnection (closedSrv s c) c.Name = none := by
  simp only [GetConnection, closedSrv, ne_eq, hn, not_false_iff, if_true]
  exact mapLoad_mapDelete_self _ _

theorem serDemoReachable : SerReachable serDemoEffect serDemoFinal := by
  have h0 : SerReachable serDemoEffect (SerState.init Nat) :=
    SerReachable.init
  have h1 := SerReachable.step h0 (SerStep.submit _ 0)
  have h2 := SerReachable.step h1 (SerStep.submit _ 1)
  have h3 := SerReachable.step h2 (SerStep.take _ 0 [1] rfl rfl)
  have h4 := SerReachable.step h3 (SerStep.done _ 0 rfl)
  have h5 := SerReachable.step h4 (SerStep.take _ 1 [] rfl rfl)
  have h6 := SerReachable.step h5 (SerStep.done _ 1 rfl)
  exact h6


/-! ## Claim theorems -/

/-- C1: match splits the route's pattern and the path into
slash-delimited segments, dropping empty segments from leading, trailing
or duplicate slashes; it succeeds only when the method equals the
route's method and the segment counts are equal; a pattern segment
beginning with a colon binds the corresponding path segment to the
parameter name, and every other pattern segment must equal the path
segment literally; dispatch tries routes in registration order and uses
the first match; matching /hello/:name against /hello/world binds name
to world. -/
theorem C1_route_matching :
    (∀ r m p ps, matchRoute r m p = some ps →
      r.Method = m ∧ (splitPath r.Pattern).length = (splitPath p).length)
    ∧ (∀ r m p, r.Method ≠ m → matchRoute r m p = none)
    ∧ (∀ p seg, seg ∈ splitPath p → seg ≠ "")
    ∧ splitPath "//hello///world/" = ["hello", "world"]
    ∧ (∀ r m p, r.Method = m →
        (splitPath r.Pattern).length = (splitPath p).length →
        (∃ pr ∈ (splitPath r.Pattern).zip (splitPath p),
          segIsParam pr.1 = false ∧ pr.1 ≠ pr.2) →
        matchRoute r m p = none)
    ∧ (∀ seg n q pps qs acc, segIsParam seg = true → seg.drop 1 = n →
        matchLoop (seg :: pps) (q :: qs) acc =
          matchLoop pps qs (mapStore acc n q))
    ∧ (∀ rs r m p ps, matchRoute r m p = some ps →
        findRoute (r :: rs) m p = some (r, ps))
    ∧ (∀ rs r m p, matchRoute r m p = none →
        findRoute (r :: rs) m p = findRoute rs m p)
    ∧ matchRoute helloRoute "GET" "/hello/world" =
        some [("name", "world")] := by
  refine ⟨matchRoute_some_method_len, ?_, ?_, ?_, ?_, ?_, ?_, ?_, ?_⟩
  · intro r m p hm
    simp [matchRoute, hm]
  · intro p seg hseg
    exact splitPath_ne_empty p.data "" seg hseg
  · decide
  · intro r m p hm hl hex
    simp [matchRoute, hm, hl]
    exact matchLoop_literal_mismatch _ _ _ hex
  · intro seg n q pps qs acc hp hd
    simp [matchLoop, hp, hd]
  · intro rs r m p ps hm
    simp [findRoute, hm]
  · intro rs r m p hm
    simp [findRoute, hm]
  · decide

/-- Witness for C1: the first-match conjunct applied to a concrete
route list and request. -/
theorem C1_route_matching_witness :
    findRoute [helloRoute, otherRoute] "GET" "/hello/world" =
      some (helloRoute, [("name", "world")]) := by
  have h := C1_route_matching
  exact h.2.2.2.2.2.2.1 [otherRoute] helloRoute "GET" "/hello/world"
    [("name", "world")] (by decide)

/-- C2 counterexample: an explicit flush on an Open context does not
transition the context to Committed and does not send its pending
status and headers: the sink commits with status 200 and an empty
header snapshot although the pending status is 500 and a pending header
exists, and the Written flag stays false. -/
theorem C2_flush_counterexample :
    openDemoCtx.written = false
    ∧ openDemoCtx.status = 500
    ∧ openDemoCtx.headers = [("X-Test", "1")]
    ∧ (flushCtx openDemoCtx).written = false
    ∧ (flushCtx openDemoCtx).writer.committed = true
    ∧ (flushCtx openDemoCtx).writer.sentStatus = 200
    ∧ (flushCtx openDemoCtx).writer.sentHeaders = [] := by decide

/-- C2 (amended): the first body write (respond) on an Open context with
an uncommitted sink commits it — the pending headers are merged into the
sink header map and sent as the snapshot, the pending status is sent,
Written is set, and the payload is appended; every later respond only
appends bytes; an explicit flush never sets Written and never sends the
pending status and headers — when nothing was sent yet it merely makes
the sink emit its own header map with status 200. -/
theorem C2_commit_protocol :
    (∀ ctx b, ctx.written = false → ctx.writer.committed = false →
      ctx.status ≠ 0 →
      (respondCtx ctx b).written = true
      ∧ (respondCtx ctx b).writer.committed = true
      ∧ (respondCtx ctx b).writer.sentStatus = ctx.status
      ∧ (respondCtx ctx b).writer.sentHeaders =
          (pushHeaders ctx.writer ctx.headers).headerMap
      ∧ (respondCtx ctx b).writer.body = ctx.writer.body ++ [b])
    ∧ (∀ ctx b, ctx.written = true → ctx.writer.committed = true →
      respondCtx ctx b =
        { ctx with writer :=
            { ctx.writer with body := ctx.writer.body ++ [b] } })
    ∧ (∀ ctx, (flushCtx ctx).written = ctx.written
        ∧ (flushCtx ctx).status = ctx.status
        ∧ (flushCtx ctx).headers = ctx.headers
        ∧ (flushCtx ctx).writer.body = ctx.writer.body
        ∧ (ctx.writer.committed = true → flushCtx ctx = ctx)
        ∧ (ctx.writer.supportsFlush = true →
            ctx.writer.committed = false →
            (flushCtx ctx).writer.committed = true
            ∧ (flushCtx ctx).writer.sentStatus = 200
            ∧ (flushCtx ctx).writer.sentHeaders = ctx.writer.headerMap)) := by
  refine ⟨?_, ?_, ?_⟩
  · intro ctx b hw hc hs
    obtain ⟨p1, p2, p3, p4, p5⟩ := pushHeaders_fields ctx.headers ctx.writer
    simp [respondCtx, hw, hs, ResponseWriter.write,
      ResponseWriter.writeHeader, p1, p4, hc]
  · intro ctx b hw hc
    simp [respondCtx, hw, ResponseWriter.write, ResponseWriter.writeHeader, hc]
  · intro ctx
    by_cases hf : ctx.writer.supportsFlush
    · by_cases hc : ctx.writer.committed
      · simp [flushCtx, hf, ResponseWriter.flushSink,
          ResponseWriter.writeHeader, hc]
      · simp [flushCtx, hf, ResponseWriter.flushSink,
          ResponseWriter.writeHeader, hc]
    · simp [flushCtx, hf]

/-- Witness for C2: the amended first-write conjunct at a concrete Open
context with pending status 500. -/
theorem C2_commit_protocol_witness :
    (respondCtx openDemoCtx "hi").written = true
    ∧ (respondCtx openDemoCtx "hi").writer.sentStatus = 500
    ∧ (respondCtx openDemoCtx "hi").writer.body = ["hi"] := by
  have h := C2_commit_protocol.1 openDemoCtx "hi" rfl rfl (by decide)
  refine ⟨h.1, h.2.2.1, ?_⟩
  rw [h.2.2.2.2]
  rfl

/-- C3: on a committed context, status and header calls have no
observable effect on the wire — the command cores never touch the sink,
so the sent status line, the sent header snapshot and the body bytes are
all unchanged — and with well-formed arguments both commands return
success. -/
theorem C3_post_commit_noop :
    (∀ ctx code, ctx.written = true →
      (statusCtx ctx code).writer = ctx.writer)
    ∧ (∀ ctx k v, ctx.written = true →
      (headerCtx ctx k v).writer = ctx.writer)
    ∧ (∀ s cid codeStr code, s.reqCtx = some cid →
        codeStr.toInt? = some code →
        statusCmd s [codeStr] =
          (Res.ok "", updateCtx s cid (fun x => statusCtx x code)))
    ∧ (∀ s cid k v, s.reqCtx = some cid → k ≠ "-to" →
        headerCmd s [k, v] =
          (Res.ok "", updateCtx s cid (fun x => headerCtx x k v))) := by
  refine ⟨?_, ?_, ?_, ?_⟩
  · intro ctx code hw
    rfl
  · intro ctx k v hw
    rfl
  · intro s cid codeStr code hrc htoi
    simp [statusCmd, resolveTarget, ambientTarget, hrc, htoi]
  · intro s cid k v hrc hkto
    simp [headerCmd, resolveTarget, ambientTarget, hrc, hkto]

/-- Witness for C3: after a first body write committed status 200, a
status 500 call leaves the sent status at 200 and the sink unchanged. -/
theorem C3_post_commit_noop_witness :
    committedDemoCtx.written = true
    ∧ (statusCtx committedDemoCtx 500).writer.sentStatus = 200
    ∧ (statusCtx committedDemoCtx 500).writer = committedDemoCtx.writer := by
  have h := C3_post_commit_noop.1 committedDemoCtx 500 (by decide)
  refine ⟨by decide, ?_, h⟩
  rw [h]
  decide

/-- C4: hold generates a fresh id, registers the connection under the id
and under the alias when one is given, and returns the alias if provided
else the id, with the returned handle resolvable via get and all other
handles untouched; close on an unknown handle fails with the
unknown-connection error; a successful close fires the termination
signal and removes both index entries, after which get reports not-found
on the id, the alias and the closed handle, and a second close on the
same handle fails; in the concrete scenario list() then omits the
connection. -/
theorem C4_hold_close_lifecycle :
    (∀ s cid name, s.reqCtx = some cid →
      HoldConnection s name =
        (some (heldConn s cid name), heldSrv s cid name)
      ∧ (heldConn s cid name).ID = freshId s
      ∧ (heldConn s cid name).Name = name
      ∧ GetConnection (heldSrv s cid name) (freshId s) =
          some (heldConn s cid name)
      ∧ (name ≠ "" → GetConnection (heldSrv s cid name) name =
          some (heldConn s cid name))
      ∧ connectionHold s name =
          (Res.ok (if name ≠ "" then name else freshId s),
           heldSrv s cid name)
      ∧ (∀ k, k ≠ freshId s → k ≠ name →
          GetConnection (heldSrv s cid name) k = GetConnection s k))
    ∧ (∀ s h, GetConnection s h = none →
        CloseConnection s h = .error ("unknown connection: " ++ h))
    ∧ (∀ s h c, GetConnection s h = some c →
        (h = c.ID ∨ (c.Name ≠ "" ∧ h = c.Name)) →
        CloseConnection s h = .ok (closedSrv s c)
        ∧ c.ID ∈ (closedSrv s c).fired
        ∧ GetConnection (closedSrv s c) c.ID = none
        ∧ (c.Name ≠ "" → GetConnection (closedSrv s c) c.Name = none)
        ∧ GetConnection (closedSrv s c) h = none
        ∧ CloseConnection (closedSrv s c) h =
            .error ("unknown connection: " ++ h))
    ∧ ((connectionHold oneCtxSrv "room").1 = Res.ok "room"
        ∧ (GetConnection (connectionHold oneCtxSrv "room").2 "room").isSome
            = true
        ∧ (connectionClose (connectionHold oneCtxSrv "room").2 "room").1 =
            Res.ok ""
        ∧ GetConnection
            (connectionClose (connectionHold oneCtxSrv "room").2 "room").2
            "room" = none
        ∧ ListConnections
            (connectionClose (connectionHold oneCtxSrv "room").2 "room").2
            = []
        ∧ (connectionClose
            (connectionClose (connectionHold oneCtxSrv "room").2 "room").2
            "room").1 =
              Res.err "connection close: unknown connection: room") := by
  refine ⟨?_, ?_, ?_, by decide⟩
  · intro s cid name hrc
    have heq := holdConnection_eq s cid name hrc
    refine ⟨heq, rfl, rfl, ?_, ?_, ?_, ?_⟩
    · by_cases hn : name = ""
      · simp [GetConnection, heldSrv, hn, mapLoad_mapStore_self]
      · by_cases hni : name = freshId s
        · subst hni
          simp [GetConnection, heldSrv, hn, mapLoad_mapStore_self]
        · have hne : freshId s ≠ name := fun he => hni he.symm
          simp only [GetConnection, heldSrv, ne_eq, hn, not_false_iff,
            if_true]
          rw [mapLoad_mapStore_ne _ _ _ _ hne]
          exact mapLoad_mapStore_self _ _ _
    · intro hn
      simp only [GetConnection, heldSrv, ne_eq, hn, not_false_iff, if_true]
      exact mapLoad_mapStore_self _ _ _
    · by_cases hn : name = ""
      · subst hn
        simp [connectionHold, heq, heldConn]
      · simp [connectionHold, heq, heldConn, hn]
    · intro k hk1 hk2
      by_cases hn : name = ""
      · simp only [GetConnection, heldSrv, ne_eq, hn, not_true,
          if_false, ite_false]
        exact mapLoad_mapStore_ne _ _ _ _ hk1
      · simp only [GetConnection, heldSrv, ne_eq, hn, not_false_iff,
          if_true]
        rw [mapLoad_mapStore_ne _ _ _ _ hk2]
        exact mapLoad_mapStore_ne _ _ _ _ hk1
  · intro s h hget
    simp only [GetConnection] at hget
    simp [CloseConnection, hget]
  · intro s h c hget hkey
    simp only [GetConnection] at hget
    have hclose := closeConnection_eq s h c hget
    have hgid := closedSrv_get_id s c
    have hgname := closedSrv_get_name s c
    have hgh : GetConnection (closedSrv s c) h = none := by
      rcases hkey with hkey | ⟨hn, hkey⟩
      · rw [hkey]
        exact hgid
      · rw [hkey]
        exact hgname hn
    refine ⟨hclose, ?_, hgid, hgname, hgh, ?_⟩
    · by_cases hf : c.ID ∈ s.fired <;> simp [closedSrv, hf]
    · simp only [GetConnection] at hgh
      simp [CloseConnection, hgh]

/-- Witness for C4: the hold conjunct applied at a concrete server, and
the close conjunct applied to the connection it created. -/
theorem C4_hold_close_lifecycle_witness :
    GetConnection (heldSrv oneCtxSrv 0 "room") "room" =
      some (heldConn oneCtxSrv 0 "room")
    ∧ GetConnection (closedSrv (heldSrv oneCtxSrv 0 "room")
        (heldConn oneCtxSrv 0 "room")) "room" = none := by
  have h1 := C4_hold_close_lifecycle.1 oneCtxSrv 0 "room" rfl
  have hget := h1.2.2.2.2.1 (by decide)
  have h3 := C4_hold_close_lifecycle.2.2.1
    (heldSrv oneCtxSrv 0 "room") "room" (heldConn oneCtxSrv 0 "room")
    hget (Or.inr ⟨by decide, by decide⟩)
  exact ⟨hget, h3.2.2.2.2.1⟩

/-- C5: respond, status, header and flush targeted with -to at a handle
that does not resolve to a live connection return success and perform no
action at all — the server state is unchanged and no error is raised. -/
theorem C5_unknown_target_noop (s : Srv) (h : String) (rest : List String)
    (hget : GetConnection s h = none) :
    respondCmd s ("-to" :: h :: rest) = (Res.ok "", s)
    ∧ statusCmd s ("-to" :: h :: rest) = (Res.ok "", s)
    ∧ headerCmd s ("-to" :: h :: rest) = (Res.ok "", s)
    ∧ flushCmd s ("-to" :: h :: rest) = (Res.ok "", s) := by
  have hrt : resolveTarget s ("-to" :: h :: rest) = TargetOutcome.silent := by
    simp [resolveTarget, hget]
  refine ⟨?_, ?_, ?_, ?_⟩ <;>
    simp [respondCmd, statusCmd, headerCmd, flushCmd, hrt]

/-- Witness for C5: the four commands targeted at a handle absent from
an empty registry. -/
theorem C5_unknown_target_noop_witness :
    respondCmd Srv.initial ["-to", "ghost", "hello"] =
      (Res.ok "", Srv.initial)
    ∧ flushCmd Srv.initial ["-to", "ghost"] = (Res.ok "", Srv.initial) := by
  have h1 := C5_unknown_target_noop Srv.initial "ghost" ["hello"] (by decide)
  have h2 := C5_unknown_target_noop Srv.initial "ghost" [] (by decide)
  exact ⟨h1.1, h2.2.2.2⟩

/-- C6: when script evaluation fails and nothing has been committed on
the request's context (Written false, nothing sent on the sink), the
dispatcher commits a server-error outcome: the sink commits with status
500 and the error text (plus newline) is appended as the body; when the
context was already committed, the error is discarded and the context —
including every byte already sent — is left unchanged. -/
theorem C6_eval_error :
    (∀ ctx e, ctx.written = false → ctx.writer.committed = false →
      (handleEvalError ctx e).writer.committed = true
      ∧ (handleEvalError ctx e).writer.sentStatus = 500
      ∧ (handleEvalError ctx e).writer.body =
          ctx.writer.body ++ [e ++ "\x0a"])
    ∧ (∀ ctx e, ctx.written = true → handleEvalError ctx e = ctx) := by
  constructor
  · intro ctx e hw hc
    simp [handleEvalError, hw, httpError, ResponseWriter.setHeader,
      ResponseWriter.writeHeader, ResponseWriter.write, hc]
  · intro ctx e hw
    simp [handleEvalError, hw]

/-- Witness for C6: both branches at concrete contexts. -/
theorem C6_eval_error_witness :
    (handleEvalError absentCtx "boom").writer.sentStatus = 500
    ∧ (handleEvalError absentCtx "boom").writer.body = ["boom\x0a"]
    ∧ handleEvalError committedDemoCtx "boom" = committedDemoCtx := by
  have h1 := C6_eval_error.1 absentCtx "boom" rfl rfl
  have h2 := C6_eval_error.2 committedDemoCtx "boom" (by decide)
  refine ⟨h1.2.1, ?_, h2⟩
  rw [h1.2.2]
  rfl

/-- C7 counterexample: in the dispatcher's statement order for a matched
and held request, the ambient context is cleared only as the final step,
after the held-connection check and after the termination/disconnect
wait — not immediately after the script's reply arrives as the claim
states, so clearing does not precede the held check. -/
theorem C7_clear_order_counterexample :
    createHandlerSteps true true =
      [DispatchStep.installCtx, DispatchStep.submitScript,
       DispatchStep.replyReceived, DispatchStep.errorCheck,
       DispatchStep.heldCheck, DispatchStep.awaitTermination,
       DispatchStep.clearCtx]
    ∧ ¬ ((createHandlerSteps true true).indexOf DispatchStep.clearCtx <
        (createHandlerSteps true true).indexOf DispatchStep.heldCheck)
    ∧ ¬ ((createHandlerSteps true true).indexOf DispatchStep.clearCtx <
        (createHandlerSteps true true).indexOf
          DispatchStep.awaitTermination) := by
  decide

/-- C7 (amended): the ambient context is installed immediately before
the script is submitted, but it is cleared as the dispatcher's final
step — after the error check, after the held-connection check and, when
the context was held, after the termination/disconnect wait. -/
theorem C7_ambient_context_order (held : Bool) :
    (createHandlerSteps true held).indexOf DispatchStep.submitScript =
      (createHandlerSteps true held).indexOf DispatchStep.installCtx + 1
    ∧ (createHandlerSteps true held).getLast? = some DispatchStep.clearCtx
    ∧ (createHandlerSteps true held).indexOf DispatchStep.errorCheck <
        (createHandlerSteps true held).indexOf DispatchStep.clearCtx
    ∧ (createHandlerSteps true held).indexOf DispatchStep.heldCheck <
        (createHandlerSteps true held).indexOf DispatchStep.clearCtx
    ∧ (held = true →
        (createHandlerSteps true held).indexOf DispatchStep.awaitTermination
          < (createHandlerSteps true held).indexOf DispatchStep.clearCtx) := by
  cases held <;> decide

/-- Witness for C7: the amended ordering at a held request. -/
theorem C7_ambient_context_order_witness :
    (createHandlerSteps true true).indexOf DispatchStep.awaitTermination <
      (createHandlerSteps true true).indexOf DispatchStep.clearCtx :=
  (C7_ambient_context_order true).2.2.2.2 rfl

/-- C8 counterexample: after a second hold reuses the alias room, the
first connection is reachable by its id while the alias resolves to the
second connection — a state in which one of the two mappings resolves to
the connection and the other does not; closing the first connection by
id then deletes the alias entry of the second connection while leaving
its id entry, removing the two mappings independently. -/
theorem C8_alias_reuse_counterexample :
    GetConnection aliasReuseSrv "conn-0" = some aliasReuseConn1
    ∧ aliasReuseConn1.Name = "room"
    ∧ GetConnection aliasReuseSrv "room" = some aliasReuseConn2
    ∧ GetConnection aliasReuseSrv "room" ≠ some aliasReuseConn1
    ∧ GetConnection aliasReuseClosed "conn-1" = some aliasReuseConn2
    ∧ GetConnection aliasReuseClosed "room" = none := by decide

/-- C8 (amended): provided each hold's generated id and alias are not
already registry keys (in particular, no alias reuse among live
connections), the registry invariant holds: every key is its
connection's id or alias, every held connection is reachable by its id
and by its alias when one was given, and hold and close preserve the
invariant, so the id and alias mappings exist together and are removed
together in every state so reachable. -/
theorem C8_dual_key_invariant :
    RegistryInv Srv.initial
    ∧ (∀ s name, RegistryInv s →
        mapLoad s.connections (freshId s) = none →
        (name ≠ "" →
          mapLoad s.connections name = none ∧ name ≠ freshId s) →
        RegistryInv (HoldConnection s name).2)
    ∧ (∀ s h s1, RegistryInv s → CloseConnection s h = .ok s1 →
        RegistryInv s1)
    ∧ (∀ s, RegistryInv s → ∀ k c, mapLoad s.connections k = some c →
        mapLoad s.connections c.ID = some c
        ∧ (c.Name ≠ "" → mapLoad s.connections c.Name = some c)) := by
  refine ⟨⟨?_, ?_⟩, registryInv_hold, registryInv_close, ?_⟩
  · intro k c hk
    simp [Srv.initial, mapLoad] at hk
  · intro k c hk
    simp [Srv.initial, mapLoad] at hk
  · intro s hinv k c hk
    exact hinv.2 k c hk

/-- Witness for C8: the invariant is preserved by a hold with a fresh
alias on a server with an empty registry. -/
theorem C8_dual_key_invariant_witness :
    RegistryInv (HoldConnection oneCtxSrv "room").2 := by
  have h := C8_dual_key_invariant
  refine h.2.1 oneCtxSrv "room" ⟨?_, ?_⟩ rfl ?_
  · intro k c hk
    simp [oneCtxSrv, mapLoad] at hk
  · intro k c hk
    simp [oneCtxSrv, mapLoad] at hk
  · intro _
    exact ⟨rfl, by decide⟩

/-- C9: in every reachable serializer state, at most one script is in
flight at every instant of the event log (starts never lead completions
by more than one), the completed scripts are a first-in-first-out
initial segment of the submission order, and the store is exactly the
whole effects of the completed scripts laid out in completion order —
no two scripts interleave partial effects. -/
theorem C9_serializer {α : Type} (effect : Nat → List α) (s : SerState α)
    (h : SerReachable effect s) :
    (∀ t, t <+: s.events →
      countStarts t ≤ countDones t + 1 ∧ countDones t ≤ countStarts t)
    ∧ (∃ rest, s.submitted = s.completed ++ rest)
    ∧ s.submitted = s.completed ++ optList s.running ++ s.queue
    ∧ s.store = s.completed.flatMap effect := by
  obtain ⟨h1, h2, h3, h4, h5⟩ := serInv_reachable effect s h
  refine ⟨fun t ht => ⟨(h5 t ht).2, (h5 t ht).1⟩,
    ⟨optList s.running ++ s.queue, ?_⟩, h1, h2⟩
  rw [h1]
  exact List.append_assoc _ _ _

/-- Witness for C9: a concrete two-script run of the serializer. -/
theorem C9_serializer_witness :
    (∃ rest, serDemoFinal.submitted = serDemoFinal.completed ++ rest)
    ∧ serDemoFinal.store = serDemoFinal.completed.flatMap serDemoEffect := by
  have h := C9_serializer serDemoEffect serDemoFinal serDemoReachable
  exact ⟨h.2.1, h.2.2.2⟩

/-- C10: query returns the default both when the parameter is absent
and when it is present with an empty value, because the lookup yields
the empty string in both cases and an empty value is replaced by the
supplied default; with no default both cases yield the empty string;
the command's result depends only on the looked-up value, so a script
cannot distinguish an empty-valued parameter from a missing one. -/
theorem C10_query_default :
    (∀ q name, mapLoad q name = none → urlQueryGet q name = "")
    ∧ (∀ q name, mapLoad q name = some "" → urlQueryGet q name = "")
    ∧ (∀ ctx name d rest, urlQueryGet ctx.queryParams name = "" →
        queryCtx ctx (name :: d :: rest) = Res.ok d)
    ∧ (∀ ctx name, queryCtx ctx [name] =
        Res.ok (urlQueryGet ctx.queryParams name))
    ∧ (∀ ctx ctx2 name rest,
        urlQueryGet ctx.queryParams name =
          urlQueryGet ctx2.queryParams name →
        queryCtx ctx (name :: rest) = queryCtx ctx2 (name :: rest)) := by
  refine ⟨?_, ?_, ?_, ?_, ?_⟩
  · intro q name hq
    simp [urlQueryGet, hq]
  · intro q name hq
    simp [urlQueryGet, hq]
  · intro ctx name d rest hq
    simp [queryCtx, hq]
  · intro ctx name
    simp [queryCtx]
  · intro ctx ctx2 name rest hq
    cases rest with
    | nil => simp [queryCtx, hq]
    | cons d ds => simp [queryCtx, hq]

/-- Witness for C10: the default is returned both for an empty-valued
and for a missing parameter, and with no default the empty-valued case
yields the empty string. -/
theorem C10_query_default_witness :
    queryCtx emptyValCtx ["q", "default"] = Res.ok "default"
    ∧ queryCtx absentCtx ["q", "default"] = Res.ok "default"
    ∧ queryCtx emptyValCtx ["q"] = Res.ok "" := by
  have h := C10_query_default
  refine ⟨h.2.2.1 emptyValCtx "q" "default" [] (by decide),
    h.2.2.1 absentCtx "q" "default" [] (by decide), ?_⟩
  rw [h.2.2.2.1 emptyValCtx "q"]
  decide


end FeatherHttpd
